import Mathlib

/-!
Verification of the `panama` channel library (src/src/channel.rs).

The repository implements a single-producer/single-consumer unbounded FIFO
channel: a `VecDeque` protected by a `Mutex`, with a `Condvar` used to block
the receiver while the queue is empty.

The shallow embedding below models:
  * the queue itself as a `List` (front of the `VecDeque` = head of the list),
    with `pushBack` for `VecDeque::push_back` and `popFront` for
    `VecDeque::pop_front`;
  * the receiver's wait loop (`Receiver::receive`, lines 29-42) as a function
    over the sequence of queue contents observed at each wakeup;
  * sequential interleavings of sends and receives as an interpreter `run`;
  * the sender's body (`Sender::send`, lines 20-25) as a micro-operation
    program `sendProg` executed by `execSendOp` over the shared state plus
    the runtime lock/condvar-waiter state;
  * the send/receive race as a small finite interleaving machine (`Cfg`,
    `next`), where `Condvar::wait`'s atomic release-and-block is a single
    transition;
  * lock poisoning as a `Bool` flag, with `.unwrap()` on `LockResult`
    modelled by `unwrapLock` into `PanicOr`.
-/

namespace Panama

/-- `VecDeque::push_back`: append at the tail. Used by `Sender::send`
(channel.rs line 22). -/
def pushBack (q : List α) (v : α) : List α := q ++ [v]

/-- `VecDeque::pop_front`: remove and return the front (oldest) element,
`none` when empty. Used by `Receiver::receive` (channel.rs line 35). -/
def popFront : List α → Option (α × List α)
  | [] => none
  | t :: q => some (t, q)

/-- The wait loop of `Receiver::receive` (channel.rs lines 31-41): pop the
front if the queue is non-empty (the `match` on `pop_front` from line 35 is
inlined: a non-empty deque yields its head), otherwise block on the condvar.
Each entry of `wakes` is the queue contents observed after one wakeup of
`Condvar::wait` (real or spurious); after every wakeup the loop re-runs the
`pop_front` check on the then-current queue.  `none` means the receiver is
still blocked after all the wakeups in `wakes` (it never returns without a
value).  `receiveLoop_popFront` below ties this back to `popFront`. -/
def receiveLoop : List α → List (List α) → Option (α × List α)
  | t :: q1, _ => some (t, q1)
  | [], [] => none
  | [], q2 :: rest => receiveLoop q2 rest

/-- `n` consecutive calls to `Receiver::receive` by the single consumer, with
no concurrent sends (so no wakeups are needed): returns the list of received
values and the remaining queue. -/
def recvN : Nat → List α → List α × List α
  | 0, q => ([], q)
  | n + 1, q =>
    match receiveLoop q [] with
    | none => ([], q)
    | some (t, q1) =>
      let p := recvN n q1
      (t :: p.1, p.2)

/-- One operation of an interleaving: a producer's `send v` or a consumer's
`receive`. -/
inductive Op (α : Type)
  | send (v : α)
  | recv
deriving DecidableEq

/-- Sequential interpreter for an interleaving of channel operations.
State is `(queue, received)`.  A `send v` appends `v` at the tail
(channel.rs line 22); a `recv` removes the front if the queue is non-empty
(line 35).  A `recv` scheduled on an empty queue has not completed (the real
receiver blocks), so it returns no value here. -/
def run : List (Op α) → List α → List α → List α × List α
  | [], q, r => (q, r)
  | Op.send v :: rest, q, r => run rest (pushBack q v) r
  | Op.recv :: rest, q, r =>
    match popFront q with
    | none => run rest q r
    | some (t, q1) => run rest q1 (r ++ [t])

/-- The values passed to `send`, in program order. -/
def sentValues : List (Op α) → List α
  | [] => []
  | Op.send v :: rest => v :: sentValues rest
  | Op.recv :: rest => sentValues rest

/-- The `Condvar` field of `Inner` (channel.rs line 46).  A condition
variable carries no data of its own: its wait set is runtime thread state,
modelled separately in `RT`. -/
inductive Condvar
  | mk
deriving DecidableEq

/-- The shared state `Inner<T>` (channel.rs lines 44-49): a queue guarded by
a mutex, plus a condition variable.  The mutex's lock bit is runtime state,
modelled in `RT`. -/
structure Inner (α : Type) where
  queue : List α
  available : Condvar
deriving DecidableEq

/-- Runtime synchronization state: whether the mutex is held, and how many
threads are blocked on the condition variable. -/
structure RT where
  locked : Bool
  waiters : Nat
deriving DecidableEq

/-- Micro-operations appearing in the bodies of `send` and `receive`. -/
inductive SendOp (α : Type)
  | lockAcq
  | pushVal (v : α)
  | lockRel
  | notifyOne
  | condWait
deriving DecidableEq

/-- The body of `Sender::send` (channel.rs lines 21-24), in source order:
acquire the lock (line 21), `push_back` the value (line 22), `drop` the
guard (line 23), `notify_one` (line 24). -/
def sendProg (v : α) : List (SendOp α) :=
  [SendOp.lockAcq, SendOp.pushVal v, SendOp.lockRel, SendOp.notifyOne]

/-- Effect of one micro-operation on the shared state and the runtime
state.  `notifyOne` wakes one blocked thread if any (`Condvar::notify_one`);
`condWait` atomically releases the lock and joins the wait set
(`Condvar::wait`). -/
def execSendOp : SendOp α → Inner α × RT → Inner α × RT
  | SendOp.lockAcq, (i, r) => (i, { r with locked := true })
  | SendOp.pushVal v, (i, r) => ({ i with queue := pushBack i.queue v }, r)
  | SendOp.lockRel, (i, r) => (i, { r with locked := false })
  | SendOp.notifyOne, (i, r) => (i, { r with waiters := r.waiters - 1 })
  | SendOp.condWait, (i, r) => (i, { r with locked := false, waiters := r.waiters + 1 })

/-- Run the whole body of `Sender::send` on a channel state. -/
def runSend (c : Inner α × RT) (v : α) : Inner α × RT :=
  (sendProg v).foldl (fun s op => execSendOp op s) c

/-- Micro-operation `a` occurs at a strictly earlier position than `b` in
the program `l`. -/
def occursBefore (a b : SendOp α) (l : List (SendOp α)) : Prop :=
  ∃ i j : Nat, i < j ∧ l.get? i = some a ∧ l.get? j = some b

/-- Program counter of the sender thread executing `Sender::send` once:
about to lock (line 21), about to push (line 22), about to drop the guard
(line 23), about to notify (line 24), finished. -/
inductive SPC
  | atLock
  | atPush
  | atUnlock
  | atNotify
  | sdone
deriving DecidableEq

/-- Program counter of the receiver thread executing `Receiver::receive`
once: about to lock (line 30), checking the queue under the lock (line 35),
blocked inside `Condvar::wait` (line 38), woken and re-acquiring the lock
(still line 38), returned. -/
inductive RPC
  | rAcquire
  | rCheck
  | rWait
  | rWoken
  | rDone
deriving DecidableEq

/-- A configuration of the two-thread race: one sender sending the value
`42` while one receiver performs one `receive` on an initially empty
channel. -/
structure Cfg where
  spc : SPC
  rpc : RPC
  locked : Bool
  queue : List Nat
  ret : Option Nat
deriving DecidableEq

/-- Interleaving semantics of the race: all configurations reachable in one
step.  Lock acquisition only fires when the lock is free.  The receiver's
transition from `rCheck` on an empty queue releases the lock and enters the
wait set in a single step — that is the atomic release-and-block of
`Condvar::wait` (channel.rs line 38).  The sender's `notify_one` wakes the
receiver exactly when it is blocked in `rWait`. -/
def next (c : Cfg) : List Cfg :=
  (match c.spc, c.locked with
    | SPC.atLock, false => [{ c with spc := SPC.atPush, locked := true }]
    | SPC.atPush, _ => [{ c with spc := SPC.atUnlock, queue := pushBack c.queue 42 }]
    | SPC.atUnlock, _ => [{ c with spc := SPC.atNotify, locked := false }]
    | SPC.atNotify, _ =>
      [{ c with spc := SPC.sdone,
                rpc := if c.rpc = RPC.rWait then RPC.rWoken else c.rpc }]
    | _, _ => [])
  ++
  (match c.rpc, c.locked with
    | RPC.rAcquire, false => [{ c with rpc := RPC.rCheck, locked := true }]
    | RPC.rCheck, _ =>
      match c.queue with
      | [] => [{ c with rpc := RPC.rWait, locked := false }]
      | t :: q1 => [{ c with rpc := RPC.rDone, ret := some t, queue := q1, locked := false }]
    | RPC.rWoken, false => [{ c with rpc := RPC.rCheck, locked := true }]
    | _, _ => [])

/-- Initial configuration of the race: empty queue, lock free, both threads
about to start. -/
def initCfg : Cfg :=
  { spc := SPC.atLock, rpc := RPC.rAcquire, locked := false, queue := [], ret := none }

/-- A configuration where both threads have finished and the receiver
returned the sent value `42`. -/
def success (c : Cfg) : Bool :=
  c.spc == SPC.sdone && c.rpc == RPC.rDone && c.ret == some 42

/-- Bounded check that every interleaving from `c` reaches, within `fuel`
steps, a configuration with no enabled step that satisfies `success` — in
particular no interleaving blocks forever and none loses the wakeup. -/
def allOk (c : Cfg) : Nat → Bool
  | 0 => false
  | fuel + 1 =>
    let ns := next c
    if ns.isEmpty then success c
    else ns.all (fun c2 => allOk c2 fuel)

/-- Panic-or-value result of an operation that may `panic!` (the effect of
`.unwrap()` on an `Err`). -/
inductive PanicOr (α : Type)
  | panicked
  | ok (a : α)
deriving DecidableEq

/-- `LockResult<MutexGuard<T>>`: `Mutex::lock` and `Condvar::wait` return
either the guard or `PoisonError` (which still carries the guard). -/
inductive LockResult (α : Type)
  | ok (a : α)
  | poisonErr (a : α)
deriving DecidableEq

/-- `Mutex::lock` (channel.rs lines 21 and 30): yields the guarded queue,
as a `PoisonError` when the mutex is poisoned. -/
def mutexLock : Bool → List α → LockResult (List α)
  | true, q => LockResult.poisonErr q
  | false, q => LockResult.ok q

/-- `.unwrap()` on a `LockResult`: a poison error becomes a panic; no retry
or recovery happens. -/
def unwrapLock : LockResult α → PanicOr α
  | LockResult.ok a => PanicOr.ok a
  | LockResult.poisonErr _ => PanicOr.panicked

/-- `Sender::send` under the poisoning model (channel.rs lines 21-24):
`self.inner.queue.lock().unwrap()` panics on a poisoned mutex, otherwise
the value is appended. -/
def sendP (poisoned : Bool) (q : List α) (t : α) : PanicOr (List α) :=
  match unwrapLock (mutexLock poisoned q) with
  | PanicOr.panicked => PanicOr.panicked
  | PanicOr.ok queue => PanicOr.ok (pushBack queue t)

/-- The initial lock acquisition of `Receiver::receive` (channel.rs
line 30): `self.inner.queue.lock().unwrap()`. -/
def recvAcquireP (poisoned : Bool) (q : List α) : PanicOr (List α) :=
  match unwrapLock (mutexLock poisoned q) with
  | PanicOr.panicked => PanicOr.panicked
  | PanicOr.ok queue => PanicOr.ok queue

/-- The lock re-acquisition inside the wait loop (channel.rs line 38):
`self.inner.available.wait(queue).unwrap()`. -/
def condWaitP (poisoned : Bool) (q : List α) : PanicOr (List α) :=
  match unwrapLock (mutexLock poisoned q) with
  | PanicOr.panicked => PanicOr.panicked
  | PanicOr.ok queue => PanicOr.ok queue

/-- Fields declared by `struct Inner<T>` (channel.rs lines 44-49):
`queue : Mutex<VecDeque<T>>` and `available : Condvar`. -/
def innerDeclaredFields : List String := ["queue", "available"]

/-- Fields assigned by the struct literal `Inner { queue : Mutex::new(Vec::new()) }`
inside `channel()` (channel.rs lines 52-54). -/
def channelInitFields : List String := ["queue"]

theorem receiveLoop_popFront (q : List α) (wakes : List (List α)) :
    (popFront q).isSome → receiveLoop q wakes = popFront q := by
  cases q with
  | nil => intro h; simp [popFront] at h
  | cons t q1 => intro _; simp [receiveLoop, popFront]

theorem foldl_pushBack (vs : List α) : ∀ q : List α, List.foldl pushBack q vs = q ++ vs := by
  induction vs with
  | nil => simp
  | cons v vs ih => intro q; simp [List.foldl, pushBack, ih]

theorem recvN_foldl (vs : List α) : recvN vs.length vs = (vs, []) := by
  induction vs with
  | nil => rfl
  | cons t vs ih =>
    simp only [List.length_cons, recvN, receiveLoop, popFront, ih]

theorem run_append (ops : List (Op α)) :
    ∀ q r, (run ops q r).2 ++ (run ops q r).1 = r ++ q ++ sentValues ops := by
  induction ops with
  | nil => intro q r; simp [run, sentValues]
  | cons op rest ih =>
    intro q r
    cases op with
    | send v =>
      simp only [run, sentValues, ih, pushBack]
      simp
    | recv =>
      cases q with
      | nil => simp [run, popFront, sentValues, ih]
      | cons t q1 =>
        simp only [run, popFront, sentValues, ih]
        simp

/-- C1. FIFO order: if the producer sends `v1, …, vn` (each `send` appending
at the tail, channel.rs line 22) before any are received, then `n`
consecutive `receive` calls return exactly `v1, …, vn` in that order and
leave the queue empty. -/
theorem fifo_order (vs : List Nat) :
    recvN vs.length (List.foldl pushBack [] vs) = (vs, []) := by
  rw [foldl_pushBack, List.nil_append, recvN_foldl]

/-- C2. No loss, no duplication: for every interleaving of sends and
receives, the multiset of values returned by completed receives plus the
multiset still queued equals the multiset of values sent; in particular the
received multiset is a sub-multiset of the sent one, so every returned value
was sent and no value is returned twice. -/
theorem no_loss_no_dup (ops : List (Op Nat)) :
    ((run ops [] []).2 : Multiset Nat) + ((run ops [] []).1 : Multiset Nat)
      = (sentValues ops : Multiset Nat)
    ∧ ((run ops [] []).2 : Multiset Nat) ≤ (sentValues ops : Multiset Nat) := by
  have h := run_append ops [] []
  simp only [List.nil_append] at h
  constructor
  · rw [Multiset.coe_add, h]
  · rw [← h, ← Multiset.coe_add]
    exact Multiset.le_add_right _ _

/-- C3. On a non-empty queue, `receive` removes the front (oldest) element
and returns exactly it, without ever blocking (the wakeup sequence is
irrelevant); `receive` has no empty or error result: whenever it returns, it
returns a value. -/
theorem receive_pops_front (t : Nat) (qs : List Nat) (wakes : List (List Nat)) :
    receiveLoop (t :: qs) wakes = some (t, qs) := by
  simp [receiveLoop]

/-- C4. The claim is right about the intent, but the code is wrong: the
struct literal inside `channel()` initializes only the `queue` field of
`Inner` and omits `available`, so the wait primitive is never initialized
(the program is rejected by the compiler: missing field `available`, and
`Vec::new()` where `Mutex<VecDeque<T>>` is expected). -/
theorem channel_missing_available :
    "available" ∉ channelInitFields ∧ channelInitFields ≠ innerDeclaredFields := by
  constructor
  · decide
  · decide

/-- C5. `send` appends the value at the tail of the queue, leaves the lock
released on exit, and its body contains no wait operation: it never blocks
(no capacity limit, no backpressure) and always succeeds. -/
theorem send_appends_and_never_blocks (i : Inner Nat) (r : RT) (v : Nat)
    (h : r.locked = false) :
    (runSend (i, r) v).1.queue = i.queue ++ [v]
    ∧ (runSend (i, r) v).2.locked = false
    ∧ SendOp.condWait ∉ sendProg v := by
  refine ⟨rfl, rfl, ?_⟩
  simp [sendProg]

theorem send_appends_witness :
    ((⟨[], Condvar.mk⟩ : Inner Nat), (⟨false, 0⟩ : RT)).2.locked = false
    ∧ ((runSend ((⟨[7], Condvar.mk⟩ : Inner Nat), (⟨false, 0⟩ : RT)) 9).1.queue = [7, 9]
        ∧ (runSend ((⟨[7], Condvar.mk⟩ : Inner Nat), (⟨false, 0⟩ : RT)) 9).2.locked = false
        ∧ SendOp.condWait ∉ sendProg 9) :=
  ⟨rfl, send_appends_and_never_blocks ⟨[7], Condvar.mk⟩ ⟨false, 0⟩ 9 rfl⟩

/-- C6. The wait loop re-checks the queue after every wakeup: a run of
spurious wakeups that always observe an empty queue never makes `receive`
return (it keeps waiting), and whenever `receive` does return a value, that
value together with the remaining queue is exactly the front split of the
queue observed at some wakeup — never a stale or empty result. -/
theorem spurious_wake_safe (n : Nat) (q : List Nat) (wakes : List (List Nat))
    (t : Nat) (q1 : List Nat) (h : receiveLoop q wakes = some (t, q1)) :
    receiveLoop ([] : List Nat) (List.replicate n []) = none ∧ t :: q1 ∈ q :: wakes := by
  constructor
  · induction n with
    | zero => rfl
    | succ m ih => simpa [List.replicate, receiveLoop] using ih
  · induction wakes generalizing q with
    | nil =>
      cases q with
      | nil => simp [receiveLoop] at h
      | cons a as => simp [receiveLoop] at h; simp [h]
    | cons w ws ih =>
      cases q with
      | nil =>
        have h2 : receiveLoop w ws = some (t, q1) := by simpa [receiveLoop] using h
        have := ih w h2
        simp at this
        rcases this with h3 | h3 <;> simp [h3]
      | cons a as => simp [receiveLoop] at h; simp [h]

theorem spurious_wake_witness :
    receiveLoop ([] : List Nat) (List.replicate 3 []) = none
    ∧ (7 : Nat) :: [] ∈ ([7] : List Nat) :: ([] : List (List Nat)) :=
  spurious_wake_safe 3 [7] [] 7 [] (by simp [receiveLoop])

/-- C7. In the body of `send`, the lock release (`drop(queue)`, line 23)
occurs strictly before the signal (`notify_one`, line 24), and the signal
wakes at most one blocked receiver: the condvar wait set shrinks by at most
one. -/
theorem unlock_before_signal (v : Nat) (i : Inner Nat) (r : RT) :
    occursBefore SendOp.lockRel SendOp.notifyOne (sendProg v)
    ∧ r.waiters - (execSendOp SendOp.notifyOne (i, r)).2.waiters ≤ 1 := by
  constructor
  · exact ⟨2, 3, by decide, rfl, rfl⟩
  · simp [execSendOp]
    omega

/-- C8. No lost wakeup: in the race of one `send 42` against one blocking
`receive` on an initially empty channel, every interleaving of the
micro-steps (where `Condvar::wait` releases the lock and blocks in a single
atomic transition) terminates within 12 steps in a configuration where the
receiver has returned exactly `42` — the receiver never blocks forever,
even when the send lands at the exact moment the receiver is about to
block. -/
theorem no_lost_wakeup : allOk initCfg 12 = true := by decide

/-- C9. Lock poisoning is fatal: when the mutex is poisoned, `send`, the
initial lock acquisition of `receive`, and the re-acquisition inside the
wait loop all panic via `.unwrap()` — no retry and no recovery ever
happens, for every queue contents and value. -/
theorem poison_is_fatal (q : List Nat) (t : Nat) :
    sendP true q t = PanicOr.panicked
    ∧ recvAcquireP true q = PanicOr.panicked
    ∧ condWaitP true q = PanicOr.panicked :=
  ⟨rfl, rfl, rfl⟩

/-- C10. Frame effect of `send`: the queue becomes the old queue with the
value appended at the back — its length grows by exactly one and every
previously queued element keeps its value and position — and no field of
the shared state other than `queue` is modified (`available` is
untouched). -/
theorem send_frame (i : Inner Nat) (r : RT) (v : Nat) (h : r.locked = false) :
    (runSend (i, r) v).1.queue = i.queue ++ [v]
    ∧ (runSend (i, r) v).1.queue.length = i.queue.length + 1
    ∧ (runSend (i, r) v).1.queue.take i.queue.length = i.queue
    ∧ (runSend (i, r) v).1.available = i.available := by
  refine ⟨rfl, ?_, ?_, rfl⟩
  · show (pushBack i.queue v).length = i.queue.length + 1
    simp [pushBack]
  · show (pushBack i.queue v).take i.queue.length = i.queue
    simp [pushBack, List.take_left]

theorem send_frame_witness :
    ((⟨false, 2⟩ : RT)).locked = false
    ∧ ((runSend ((⟨[3, 4], Condvar.mk⟩ : Inner Nat), (⟨false, 2⟩ : RT)) 5).1.queue = [3, 4, 5]
        ∧ (runSend ((⟨[3, 4], Condvar.mk⟩ : Inner Nat), (⟨false, 2⟩ : RT)) 5).1.queue.length
            = [3, 4].length + 1
        ∧ (runSend ((⟨[3, 4], Condvar.mk⟩ : Inner Nat), (⟨false, 2⟩ : RT)) 5).1.queue.take
            [3, 4].length = [3, 4]
        ∧ (runSend ((⟨[3, 4], Condvar.mk⟩ : Inner Nat), (⟨false, 2⟩ : RT)) 5).1.available
            = Condvar.mk) :=
  ⟨rfl, send_frame ⟨[3, 4], Condvar.mk⟩ ⟨false, 2⟩ 5 rfl⟩

end Panama
